import Mathlib

/-!
Verification development for the SpendTracker expense-tracking application.

The definitions below are a shallow embedding of the budget-status and
spending-analytics core of the repository:

* src/components/ExpensesContext.tsx : loadStoredData, getBudgetStatus,
  addExpense, updateExpense, deleteExpense;
* src/app/(tabs)/two.tsx : filterExpenses, getChartData, getCategoryData,
  getTotalSpent, getMoneySavingTip;
* src/app/(tabs)/index.tsx : the handleSubmit validation gate.

Modelling conventions, stated once here:

* JavaScript numbers are modelled as rationals. Money amounts flow through
  sums, comparisons, max, and the two-decimal rounding
  Math.round(x * 100) / 100 only, so the rational model follows the source
  exactly up to float rounding noise, which is not modelled.
* Local civil time is modelled with a fixed UTC-like offset and constant
  86400000-millisecond days (no daylight-saving jumps). A JavaScript Date
  is represented by its civil fields (year, month 1..12, day of month,
  milliseconds within the day); getTime is computed with the standard
  proleptic-Gregorian day-number algorithm, which is affine in the day
  field, so Date.setDate rollover behaves exactly as in JavaScript.
* The expression new Date(expense.date).getTime() (parsing a locale date
  string) is abstracted by carrying the parsed instant as a separate
  field dateMs on each record.
* JavaScript object maps (categoryTotals, categoryLimits) are modelled as
  association lists updated in insertion order, as JS objects are.
* Alert dialogs and AsyncStorage are modelled by explicit parameters: the
  user decision for a confirmation prompt and a success flag for a durable
  write, with the stored expenses array carried as explicit state.
* Strings thrown as errors in the source (Expense cancelled, Update
  cancelled, Expense not found, Failed to save changes) are modelled by
  the constructors of the Outcome type.
-/

namespace SpendTracker

/-- Milliseconds in one civil day. -/
def msPerDay : Int := 86400000

/-- Base of the standard civil-date to day-number algorithm (proleptic
Gregorian, the arithmetic JavaScript Date performs for its local-time
fields): the day number of the fictitious day 0 of month m in year y.
The full algorithm is affine in the day-of-month, so it is split into
this base plus the day. -/
def civilBase (y m : Int) : Int :=
  let yy := if m ≤ 2 then y - 1 else y
  let era := yy / 400
  let yoe := yy - era * 400
  let mp := if m ≤ 2 then m + 9 else m - 3
  let doy := (153 * mp + 2) / 5 - 1
  era * 146097 + (yoe * 365 + yoe / 4 - yoe / 100 + doy) - 719468

/-- Day number (days since 1970-01-01) of the civil date y-m-d. Affine in
d, which reproduces the rollover behavior of Date.setDate for day values
outside 1..31. -/
def daysFromCivil (y m d : Int) : Int := civilBase y m + d

/-- A JavaScript Date value, represented by its local civil fields.
month is 1-based (January = 1); ms is the millisecond offset within the
day, combining the hours, minutes, seconds and milliseconds fields. -/
structure DateTime where
  year : Int
  month : Int
  day : Int
  ms : Int
deriving Repr, DecidableEq

namespace DateTime

/-- Day number of the calendar day this instant lies in. -/
def dayNumber (t : DateTime) : Int := daysFromCivil t.year t.month t.day

/-- Date.prototype.getTime: milliseconds since the epoch. -/
def getTime (t : DateTime) : Int := t.dayNumber * msPerDay + t.ms

/-- Date.prototype.getDate: the day-of-month field. -/
def getDate (t : DateTime) : Int := t.day

/-- Date.prototype.getDay: day of week, 0 = Sunday. 1970-01-01 (day
number 0) was a Thursday (= 4). -/
def getDay (t : DateTime) : Int := (t.dayNumber + 4) % 7

/-- Date.prototype.setDate d: replaces the day-of-month field,
normalizing out-of-range values by linear rollover. -/
def setDate (t : DateTime) (d : Int) : DateTime := { t with day := d }

/-- Date.prototype.setHours(0,0,0,0): truncate to the start of the
calendar day. -/
def setHours0 (t : DateTime) : DateTime := { t with ms := 0 }

/-- A DateTime as produced by the runtime clock via new Date(): the
time-of-day offset is in range and the day-of-month is at least 1. -/
def Valid (t : DateTime) : Prop := 0 ≤ t.ms ∧ t.ms < msPerDay ∧ 1 ≤ t.day

instance (t : DateTime) : Decidable t.Valid := by
  unfold Valid; infer_instance

end DateTime

/-- Start of the calendar day (normalize an instant to local midnight),
as new Date(t) followed by setHours(0,0,0,0) computes it. -/
def startOfDayMs (t : Int) : Int := (t / msPerDay) * msPerDay

/-- Budget period, the window-reset rule. -/
inductive Period where
  | daily
  | weekly
  | monthly
deriving Repr, DecidableEq

/-- The Budget record of ExpensesContext.tsx. categoryLimits is an
optional object mapping category ids to caps; none models an absent
field, some with an association list models a present object. -/
structure Budget where
  amount : ℚ
  period : Period
  categoryLimits : Option (List (String × ℚ)) := none
deriving DecidableEq

/-- The Expense record of ExpensesContext.tsx. The date field is the
user-facing locale date string; dateMs is the abstracted value of
new Date(date).getTime(). timestamp is optional in the source interface. -/
structure Expense where
  id : String
  description : String
  amount : ℚ
  date : String
  dateMs : Int
  category : String
  timestamp : Option Int := none
deriving DecidableEq, Inhabited

/-- The input to addExpense and updateExpense: an Expense without id and
timestamp. -/
structure ExpenseInput where
  description : String
  amount : ℚ
  date : String
  dateMs : Int
  category : String
deriving DecidableEq

/-- The value of the JS expression (expense.timestamp || new
Date(expense.date).getTime()): the timestamp field unless it is absent
or 0 (falsy), in which case the parsed date string. Used for all
window-membership math. -/
def effTimestamp (e : Expense) : Int :=
  match e.timestamp with
  | some t => if t = 0 then e.dateMs else t
  | none => e.dateMs

/-- JS object update m[k] = (m[k] || 0) + v on an association list,
preserving insertion order as JS objects do. -/
def addTo (m : List (String × ℚ)) (k : String) (v : ℚ) : List (String × ℚ) :=
  match m with
  | [] => [(k, v)]
  | (k', v') :: rest =>
      if k' = k then (k', v' + v) :: rest else (k', v') :: addTo rest k v

/-- JS read (m[k] || 0): the entry for key k, defaulting to 0. -/
def lookupD (m : List (String × ℚ)) (k : String) : ℚ :=
  (m.lookup k).getD 0

/-- Sum of the values of an association list
(Object.values(m).reduce((a,b) => a+b, 0)). -/
def sumValues (m : List (String × ℚ)) : ℚ :=
  (m.map Prod.snd).sum

/-- The result object of getBudgetStatus. -/
structure BudgetStatus where
  total : ℚ
  remaining : ℚ
  categoryTotals : List (String × ℚ)
  isOverBudget : Bool
deriving DecidableEq

/-- The startOfPeriod Date computed by getBudgetStatus from the budget
period and the current instant, exactly as the source switch does:
daily sets hours to 0; weekly does setDate(getDate() - getDay()) then
hours 0; monthly does setDate(1) then hours 0. -/
def startOfPeriodDate (b : Budget) (now : DateTime) : DateTime :=
  match b.period with
  | .daily => now.setHours0
  | .weekly => (now.setDate (now.getDate - now.getDay)).setHours0
  | .monthly => (now.setDate 1).setHours0

/-- getBudgetStatus of ExpensesContext.tsx, as a pure function of the
budget state, the expenses state and the current instant. Without a
budget it returns the fixed empty status. Otherwise it filters the
records whose effective timestamp is at or after the period start,
accumulates the total and the per-category totals in one pass, and
computes the over-budget flag: the global check first, and the
category-limit check only if the global check did not trip and
categoryLimits is present. -/
def getBudgetStatus (budget : Option Budget) (expenses : List Expense)
    (now : DateTime) : BudgetStatus :=
  match budget with
  | none => { total := 0, remaining := 0, categoryTotals := [], isOverBudget := false }
  | some b =>
      let startOfPeriod := startOfPeriodDate b now
      let periodExpenses := expenses.filter
        (fun e => startOfPeriod.getTime ≤ effTimestamp e)
      let acc := periodExpenses.foldl
        (fun (p : ℚ × List (String × ℚ)) e =>
          (p.1 + e.amount, addTo p.2 e.category e.amount)) (0, [])
      let total := acc.1
      let categoryTotals := acc.2
      let isOverBudget : Bool :=
        if b.amount < total then true
        else
          match b.categoryLimits with
          | some ls => ls.any (fun p => decide (p.2 < lookupD categoryTotals p.1))
          | none => false
      { total := total
        remaining := max 0 (b.amount - total)
        categoryTotals := categoryTotals
        isOverBudget := isOverBudget }

/-- Math.round: round half toward positive infinity, as JavaScript does
(Math.round(0.5) = 1, Math.round(-0.5) = 0). -/
def jsRound (q : ℚ) : Int := ⌊q + 1/2⌋

/-- Math.round(q * 100) / 100: rounding a monetary amount to cent
precision. -/
def round2 (q : ℚ) : ℚ := (jsRound (q * 100) : ℚ) / 100

/-- Truthiness of an optional string field of a parsed JSON record:
present and nonempty. -/
def strTruthy : Option String → Bool
  | some s => !(s == "")
  | none => false

/-- One element of a persisted expenses array, before validation: every
field may be missing or of the wrong type. amount is some q exactly when
the stored value had JS type number; dateMs abstracts
new Date(date).getTime() for the stored date string. -/
structure RawExpense where
  id : Option String := none
  description : Option String := none
  amount : Option ℚ := none
  date : Option String := none
  dateMs : Int := 0
  category : Option String := none
  timestamp : Option Int := none
deriving DecidableEq

/-- A persisted expenses payload as seen after AsyncStorage.getItem:
an array of raw records, some parseable non-array JSON value (load only
asks Array.isArray of it, so non-array values are collapsed to one
constructor), or a string JSON.parse throws on. -/
inductive StoredPayload where
  | arr (records : List RawExpense)
  | nonArray
  | malformed
deriving DecidableEq

/-- The per-record filter of loadStoredData: truthy id, truthy
description, number-typed amount and truthy date. -/
def loadKeeps (e : RawExpense) : Bool :=
  strTruthy e.id && strTruthy e.description && e.amount.isSome && strTruthy e.date

/-- The per-record normalization of loadStoredData: trim the
description, round the amount to cents, default a falsy category to
other, and derive the timestamp from the date string when absent or
falsy. -/
def loadNormalize (e : RawExpense) : Expense :=
  { id := e.id.getD ""
    description := (e.description.getD "").trim
    amount := round2 (e.amount.getD 0)
    date := e.date.getD ""
    dateMs := e.dateMs
    category :=
      match e.category with
      | some c => if c = "" then "other" else c
      | none => "other"
    timestamp := some
      (match e.timestamp with
       | some t => if t = 0 then e.dateMs else t
       | none => e.dateMs) }

/-- The validation and normalization loadStoredData applies to a parsed
array: filter then map, per record. -/
def validateLoaded (parsed : List RawExpense) : List Expense :=
  (parsed.filter loadKeeps).map loadNormalize

/-- The expenses half of loadStoredData: given the stored payload (none
models a missing key, and also an empty stored string, both falsy),
returns the resulting expenses state (initial state is the empty list)
and whether the expenses storage key was removed. A malformed payload
makes JSON.parse throw: the catch clears the key and sets the empty
list. A parseable non-array payload is skipped silently, without
clearing the key. -/
def loadExpenses (stored : Option StoredPayload) : List Expense × Bool :=
  match stored with
  | none => ([], false)
  | some .malformed => ([], true)
  | some .nonArray => ([], false)
  | some (.arr parsed) => (validateLoaded parsed, false)

/-- The value of budget.categoryLimits?.[c]. -/
def limitLookup (b : Budget) (c : String) : Option ℚ :=
  match b.categoryLimits with
  | some ls => ls.lookup c
  | none => none

/-- Whether addExpense builds a nonempty warningMessage, i.e. requests a
budget-warning confirmation: with a budget set, either the projected
total exceeds the budget amount, or otherwise the category limit for the
input category exists, is truthy (nonzero), and the projected category
total exceeds it. -/
def addWarns (budget : Option Budget) (expenses : List Expense) (now : DateTime)
    (input : ExpenseInput) : Bool :=
  let budgetStatus := getBudgetStatus budget expenses now
  let newTotal := budgetStatus.total + input.amount
  let categoryTotal := lookupD budgetStatus.categoryTotals input.category + input.amount
  match budget with
  | none => false
  | some b =>
      if b.amount < newTotal then true
      else
        match limitLookup b input.category with
        | some l => decide (l ≠ 0) && decide (l < categoryTotal)
        | none => false

/-- Whether updateExpense requests a budget-warning confirmation for
replacing oldExpense by input: the source guards the whole check with
budget && amountDiff > 0, then applies the same two-step check as
addExpense, with the projected category total adding the difference for
an unchanged category and adding the full new amount for a changed
category. -/
def updateWarns (budget : Option Budget) (expenses : List Expense) (now : DateTime)
    (oldExpense : Expense) (input : ExpenseInput) : Bool :=
  let budgetStatus := getBudgetStatus budget expenses now
  let amountDiff := input.amount - oldExpense.amount
  let newTotal := budgetStatus.total + amountDiff
  let categoryTotal := lookupD budgetStatus.categoryTotals input.category +
    (if input.category = oldExpense.category then amountDiff else input.amount)
  match budget with
  | none => false
  | some b =>
      if 0 < amountDiff then
        if b.amount < newTotal then true
        else
          match limitLookup b input.category with
          | some l => decide (l ≠ 0) && decide (l < categoryTotal)
          | none => false
      else false

/-- How a mutation of the store ends: committed, declined by the user at
a budget warning (the thrown Expense cancelled and Update cancelled
errors), rejected because no record has the requested id (the thrown
Expense not found error), or failed at the durable write. -/
inductive Outcome where
  | ok
  | cancelled
  | notFound
  | storageFailed
deriving DecidableEq

/-- The state after a mutation attempt: the in-memory expenses state, the
durable storage contents under the expenses key, and the outcome. -/
structure MutResult where
  expenses : List Expense
  storage : List Expense
  outcome : Outcome
deriving DecidableEq

/-- addExpense of ExpensesContext.tsx: build the new record with id and
timestamp from the clock, request confirmation if the projected state
warrants a warning (a decline rejects with Expense cancelled, which the
catch rethrows untouched), then write the appended array to storage and
only then set the in-memory state; a storage failure leaves the
in-memory state unchanged. userAccepts is the user decision at the
prompt and storeOk whether AsyncStorage.setItem succeeds. -/
def addExpenseRun (budget : Option Budget) (expenses storage : List Expense)
    (now : DateTime) (input : ExpenseInput) (userAccepts storeOk : Bool) : MutResult :=
  let timestamp := now.getTime
  let newExpense : Expense :=
    { id := toString timestamp
      description := input.description
      amount := input.amount
      date := input.date
      dateMs := input.dateMs
      category := input.category
      timestamp := some timestamp }
  if addWarns budget expenses now input && !userAccepts then
    { expenses := expenses, storage := storage, outcome := .cancelled }
  else if !storeOk then
    { expenses := expenses, storage := storage, outcome := .storageFailed }
  else
    let updatedExpenses := expenses ++ [newExpense]
    { expenses := updatedExpenses, storage := updatedExpenses, outcome := .ok }

/-- updateExpense of ExpensesContext.tsx: find the record (absent id
throws Expense not found), request confirmation if the update warrants a
warning (a decline rejects with Update cancelled, rethrown untouched by
the catch), then write the mapped array to storage and set the in-memory
state; a storage failure changes nothing. -/
def updateExpenseRun (budget : Option Budget) (expenses storage : List Expense)
    (now : DateTime) (id : String) (input : ExpenseInput)
    (userAccepts storeOk : Bool) : MutResult :=
  let timestamp := now.getTime
  let updatedExpense : Expense :=
    { id := id
      description := input.description
      amount := input.amount
      date := input.date
      dateMs := input.dateMs
      category := input.category
      timestamp := some timestamp }
  match expenses.find? (fun e => e.id == id) with
  | none => { expenses := expenses, storage := storage, outcome := .notFound }
  | some oldExpense =>
      if updateWarns budget expenses now oldExpense input && !userAccepts then
        { expenses := expenses, storage := storage, outcome := .cancelled }
      else if !storeOk then
        { expenses := expenses, storage := storage, outcome := .storageFailed }
      else
        let updatedExpenses := expenses.map (fun e => if e.id = id then updatedExpense else e)
        { expenses := updatedExpenses, storage := updatedExpenses, outcome := .ok }

/-- deleteExpense of ExpensesContext.tsx: an absent id throws Expense not
found with nothing changed; otherwise the in-memory state is set to the
filtered array immediately (optimistically), the filtered array is
written to storage, and a storage failure reverts the in-memory state to
the previous array and rethrows as Failed to save changes. -/
def deleteExpenseRun (expenses storage : List Expense) (id : String)
    (storeOk : Bool) : MutResult :=
  match expenses.find? (fun e => e.id == id) with
  | none => { expenses := expenses, storage := storage, outcome := .notFound }
  | some _ =>
      let updatedExpenses := expenses.filter (fun e => e.id != id)
      if storeOk then
        { expenses := updatedExpenses, storage := updatedExpenses, outcome := .ok }
      else
        { expenses := expenses, storage := storage, outcome := .storageFailed }

/-- The date filters of the analytics screen. The source switches on a
string whose default case behaves as all; only these five values are
ever set by the screen. -/
inductive DateFilter where
  | all
  | today
  | week
  | month
  | custom
deriving DecidableEq

/-- filterExpenses of the analytics screen: each record timestamp is
normalized to the start of its calendar day and compared against window
bounds. today is an exact calendar-day match (toDateString equality);
week compares against today minus 7 days; month against the same
day-of-month of the previous month (Date.setMonth semantics); custom
requires both bounds, else keeps everything; all keeps everything. An
empty input list is returned as is. -/
def filterExpenses (dateFilter : DateFilter) (startDate endDate : Option DateTime)
    (now : DateTime) (allExpenses : List Expense) : List Expense :=
  if allExpenses.isEmpty then allExpenses
  else
    let today := now.setHours0
    allExpenses.filter fun e =>
      let expenseDay := startOfDayMs (effTimestamp e)
      match dateFilter with
      | .today => expenseDay == today.getTime
      | .week =>
          let weekAgo := today.setDate (today.getDate - 7)
          decide (weekAgo.getTime ≤ expenseDay) && decide (expenseDay ≤ today.getTime)
      | .month =>
          let monthAgo : DateTime := { today with month := today.month - 1 }
          decide (monthAgo.getTime ≤ expenseDay) && decide (expenseDay ≤ today.getTime)
      | .custom =>
          match startDate, endDate with
          | some s, some e' =>
              decide (s.getTime ≤ expenseDay) && decide (expenseDay ≤ e'.getTime)
          | _, _ => true
      | .all => true

/-- Math.ceil(a / b) for integers with b positive. -/
def ceilDivJS (a b : Int) : Int := -((-a) / b)

/-- The list of bucket days (as day numbers) getChartData builds: one for
today, 7 ending today for week, 30 ending today for month and for the
all-time default, and for custom one per calendar day from the start
date over ceil((end-start)/day)+1 days, falling back to today when a
bound is missing. -/
def chartDays (dateFilter : DateFilter) (startDate endDate : Option DateTime)
    (now : DateTime) : List Int :=
  let today := now.setHours0
  match dateFilter with
  | .today => [today.dayNumber]
  | .week => (List.range 7).map fun i => (today.setDate (today.getDate - 6)).dayNumber + i
  | .month => (List.range 30).map fun i => (today.setDate (today.getDate - 29)).dayNumber + i
  | .custom =>
      match startDate, endDate with
      | some s, some e =>
          let dayCount := ceilDivJS (e.getTime - s.getTime) msPerDay + 1
          (List.range dayCount.toNat).map fun i => s.dayNumber + i
      | _, _ => [today.dayNumber]
  | .all => (List.range 30).map fun i => (today.setDate (today.getDate - 29)).dayNumber + i

/-- The data series of getChartData: for each bucket day, the sum of the
amounts of the records whose raw effective timestamp lies between the
day start (00:00:00.000) and the day end (23:59:59.999) inclusive,
rounded to cents. Chart labels are presentation and not modelled. -/
def getChartData (expenses : List Expense) (dateFilter : DateFilter)
    (startDate endDate : Option DateTime) (now : DateTime) : List ℚ :=
  (chartDays dateFilter startDate endDate now).map fun day =>
    let dayStart := day * msPerDay
    let dayEnd := day * msPerDay + (msPerDay - 1)
    round2 (expenses.foldl
      (fun sum e =>
        if dayStart ≤ effTimestamp e ∧ effTimestamp e ≤ dayEnd then sum + e.amount
        else sum) 0)

/-- The fixed known category set of the analytics screen, id and display
name (colors are presentation and not modelled). -/
def categoriesList : List (String × String) :=
  [("food", "Food"), ("transport", "Transport"), ("shopping", "Shopping"),
   ("bills", "Bills"), ("entertainment", "Entertainment"), ("other", "Other")]

/-- One entry of the category breakdown (legend fields and color are
presentation and not modelled). -/
structure CatDatum where
  name : String
  amount : ℚ
  percentage : Int
deriving DecidableEq

/-- The bucket key of a record in getCategoryData: expense.category with
a falsy (empty) category defaulting to other. -/
def catKey (e : Expense) : String := if e.category = "" then "other" else e.category

/-- getCategoryData of the analytics screen: accumulate per-category
totals over all passed records (unknown categories get their own
bucket), then map the fixed known category list to chart entries, with
the amount rounded to cents and the percentage the rounded share of the
sum of all bucket values, or 0 when the bucket value is falsy. -/
def getCategoryData (expenses : List Expense) : List CatDatum :=
  let categoryTotals := expenses.foldl (fun acc e => addTo acc (catKey e) e.amount) []
  categoriesList.map fun c =>
    { name := c.2
      amount := round2 (lookupD categoryTotals c.1)
      percentage :=
        if lookupD categoryTotals c.1 ≠ 0 then
          jsRound (lookupD categoryTotals c.1 / sumValues categoryTotals * 100)
        else 0 }

/-- getTotalSpent of the analytics screen: the rounded sum of all
amounts of the passed records. -/
def getTotalSpent (expenses : List Expense) : ℚ :=
  round2 ((expenses.map Expense.amount).sum)

/-- The advisory tip selected by getMoneySavingTip, abstracted to the
identity of the fired rule plus the data its message interpolates. -/
inductive Tip where
  | onboarding
  | concentration (name : String) (pct : Int)
  | highSpend (roundedDailyAverage : Int)
  | recentTrend
  | diversification
  | balanced
deriving DecidableEq

/-- The elapsed-days denominator of getMoneySavingTip: fixed per filter,
except custom, which uses the span in days between the first and last
record of the filtered list when it has at least two records. -/
def totalDaysFor (dateFilter : DateFilter) (expenses : List Expense) : Int :=
  match dateFilter with
  | .today => 1
  | .week => 7
  | .month => 30
  | .custom =>
      if 2 ≤ expenses.length then
        let latest := effTimestamp (expenses.getLastD default)
        let earliest := effTimestamp (expenses.headD default)
        max 1 (ceilDivJS (latest - earliest) msPerDay)
      else 1
  | .all => 30

/-- The head of the stable descending sort by amount used for the
highest-spending category: the first element of the list attaining the
maximal amount (JS Array.prototype.sort is stable). -/
def argmaxFirst (l : List CatDatum) : Option CatDatum :=
  l.foldl
    (fun acc c =>
      match acc with
      | none => some c
      | some b => if b.amount < c.amount then some c else acc)
    none

/-- Array.prototype.slice(-n): the last up-to-n elements. -/
def takeLast (n : Nat) (l : List Expense) : List Expense := l.drop (l.length - n)

/-- getMoneySavingTip of the analytics screen: the six-rule decision
cascade over the filtered record set and its category breakdown, in
source order; only the first matching rule fires. -/
def getMoneySavingTip (expenses : List Expense) (categoryData : List CatDatum)
    (dateFilter : DateFilter) : Tip :=
  if expenses.isEmpty then .onboarding
  else
    let totalDays := totalDaysFor dateFilter expenses
    let total := getTotalSpent expenses
    let dailyAverage := total / (totalDays : ℚ)
    let highestSpendingCategory :=
      argmaxFirst (categoryData.filter fun c => decide (0 < c.amount))
    let concentrated :=
      match highestSpendingCategory with
      | some h => if 50 < h.percentage then some (Tip.concentration h.name h.percentage) else none
      | none => none
    match concentrated with
    | some t => t
    | none =>
        if 1000 < dailyAverage then .highSpend (jsRound dailyAverage)
        else
          let recentExpenses := takeLast 3 expenses
          let recentTrend : ℚ :=
            if 0 < recentExpenses.length then
              (recentExpenses.map Expense.amount).sum / (recentExpenses.length : ℚ)
            else 0
          if dailyAverage * (3 / 2) < recentTrend then .recentTrend
          else
            let categoryCount := (categoryData.filter fun c => decide (0 < c.amount)).length
            if categoryCount ≤ 2 ∧ 5 < expenses.length then .diversification
            else .balanced

/-- The validation gate of handleSubmit on the expenses screen, the sole
caller of addExpense and updateExpense: reject an empty trimmed
description, then reject when parseFloat gave NaN (modelled as none; the
input field sanitizer admits only digits and one dot, so infinite values
cannot arise) or a non-positive amount; otherwise build the mutation
input with the trimmed description and the amount rounded to cents. -/
def handleSubmitGate (description : String) (amountParsed : Option ℚ)
    (category : String) (date : String) (dateMs : Int) : Option ExpenseInput :=
  if description.trim = "" then none
  else
    match amountParsed with
    | none => none
    | some amountNum =>
        if amountNum ≤ 0 then none
        else some
          { description := description.trim
            amount := round2 amountNum
            date := date
            dateMs := dateMs
            category := category }

/-! ### Specification-side definitions

Definitions in this block are written from the wording of spec.md, to be
compared with the source-side definitions above. -/

/-- Modelled from the spec: an instant that is the start of a calendar
day whose day of week is Sunday (day number congruent to Sunday in the
week grid anchored at Thursday 1970-01-01). -/
def IsSundayStart (t : Int) : Prop :=
  t % msPerDay = 0 ∧ (t / msPerDay + 4) % 7 = 0

/-- The record timestamp as a plain integer; meaningful for records whose
timestamp field is present. -/
def tsOf (e : Expense) : Int := e.timestamp.getD 0

/-- The record carries a usable (present and nonzero, hence non-falsy)
timestamp, as every record produced by load, add or update does. -/
def TsPresent (e : Expense) : Prop := e.timestamp ≠ none ∧ e.timestamp ≠ some 0

instance (e : Expense) : Decidable (TsPresent e) := by
  unfold TsPresent; infer_instance

/-- Sum of the amounts of the records with the given key under a key
function. -/
def catSumBy (key : Expense → String) (expenses : List Expense) (c : String) : ℚ :=
  ((expenses.filter fun e => key e = c).map Expense.amount).sum

/-- Sum of the amounts of the records of one category. -/
def catSum (expenses : List Expense) (c : String) : ℚ :=
  catSumBy Expense.category expenses c

/-- The period-start description of claim C1: daily is the start of the
current calendar day; weekly is the most recent Sunday at start of day
(a Sunday day-start, not after now, and no later Sunday day-start is at
or before now); monthly is the first day of the current month at start
of day. -/
def C1PeriodStartSpec (b : Budget) (now : DateTime) (ps : Int) : Prop :=
  (b.period = .daily → ps = startOfDayMs now.getTime) ∧
  (b.period = .weekly →
    IsSundayStart ps ∧ ps ≤ now.getTime ∧
    ∀ t : Int, IsSundayStart t → t ≤ now.getTime → t ≤ ps) ∧
  (b.period = .monthly →
    ps = daysFromCivil now.year now.month 1 * msPerDay ∧
    ps ≤ now.getTime ∧ ps % msPerDay = 0)

/-- The full property of claim C1 at one input: the period start is as
described, the total sums exactly the records whose timestamp is at or
after the period start, remaining is the clamped difference, and the
over-budget flag holds exactly when the total exceeds the budget amount
or some configured category limit is exceeded by that category's
in-period total. -/
def C1Claim (b : Budget) (es : List Expense) (now : DateTime) : Prop :=
  let st := getBudgetStatus (some b) es now
  let ps := (startOfPeriodDate b now).getTime
  let periodEs := es.filter fun e => decide (ps ≤ tsOf e)
  C1PeriodStartSpec b now ps ∧
  st.total = (periodEs.map Expense.amount).sum ∧
  st.remaining = max 0 (b.amount - st.total) ∧
  (st.isOverBudget = true ↔
    b.amount < st.total ∨
    ∃ p ∈ b.categoryLimits.getD [], p.2 < catSum periodEs p.1)

/-- The projected-over-cap condition of claim C2 for an add: the
projected total (current period total plus the new amount) exceeds the
budget amount, or the new record's category has a configured limit
that its projected total (current category total plus the new amount)
exceeds. -/
def C2AddCond (b : Budget) (es : List Expense) (now : DateTime)
    (input : ExpenseInput) : Prop :=
  let st := getBudgetStatus (some b) es now
  b.amount < st.total + input.amount ∨
  ∃ l, limitLookup b input.category = some l ∧
    l < lookupD st.categoryTotals input.category + input.amount

/-- The projected-over-cap condition of claim C2 for an update replacing
oldExpense: the projected total (current total plus the amount delta)
exceeds the budget amount, or the new category has a configured limit
exceeded by its projected total, where a category change removes the old
amount from the old category and adds the new amount to the new
category, so the new category's projected total gains the full new
amount. -/
def C2UpdateCond (b : Budget) (es : List Expense) (now : DateTime)
    (oldExpense : Expense) (input : ExpenseInput) : Prop :=
  let st := getBudgetStatus (some b) es now
  let newTotal := st.total + (input.amount - oldExpense.amount)
  let newCategoryTotal := lookupD st.categoryTotals input.category +
    (if input.category = oldExpense.category then input.amount - oldExpense.amount
     else input.amount)
  b.amount < newTotal ∨
  ∃ l, limitLookup b input.category = some l ∧ l < newCategoryTotal

/-- A rational amount with at most two decimal places (an exact number
of cents), as every amount that went through the cent rounding is. -/
def Cents (q : ℚ) : Prop := ∃ n : ℤ, q = (n : ℚ) / 100

/-- The daily-average spend of the tip engine: rounded total divided by
the elapsed-days denominator of the filter. -/
def dailyAvg (expenses : List Expense) (dateFilter : DateFilter) : ℚ :=
  getTotalSpent expenses / (totalDaysFor dateFilter expenses : ℚ)

/-- The average amount of the most recent up-to-3 records, 0 when there
are none. -/
def recentAvg (expenses : List Expense) : ℚ :=
  let recentExpenses := takeLast 3 expenses
  if 0 < recentExpenses.length then
    (recentExpenses.map Expense.amount).sum / (recentExpenses.length : ℚ)
  else 0

/-- The category-breakdown entries with nonzero (positive) spend. -/
def nonzeroCats (categoryData : List CatDatum) : List CatDatum :=
  categoryData.filter fun c => decide (0 < c.amount)

/-! ### Concrete instances for witnesses and counterexamples -/

/-- A fixed reference instant, 2024-01-15 (a Monday) at local midnight. -/
def nowRef : DateTime := { year := 2024, month := 1, day := 15, ms := 0 }

/-- The day number of 2024-01-15. -/
def dayRef : Int := 19737

/-- The epoch milliseconds of 2024-01-15 00:00 local. -/
def msRef : Int := 1705276800000

/-- Witness instance for C1: a monthly budget of 5000. -/
def c1Budget : Budget := { amount := 5000, period := .monthly }

/-- Witness instance for C1: one in-period record of 4500. -/
def c1Expenses : List Expense :=
  [{ id := "a", description := "groceries", amount := 4500, date := "15/01/2024",
     dateMs := msRef, category := "food", timestamp := some msRef }]

/-- Counterexample instance for C2: a daily budget with a food limit of
30. -/
def c2Budget : Budget :=
  { amount := 1000, period := .daily, categoryLimits := some [("food", 30)] }

/-- Counterexample instance for C2: one in-period transport record of
50. -/
def c2Old : Expense :=
  { id := "b", description := "taxi", amount := 50, date := "15/01/2024",
    dateMs := msRef, category := "transport", timestamp := some msRef }

/-- Counterexample instance for C2: the update input moving the record
to the food category at the same amount. -/
def c2Input : ExpenseInput :=
  { description := "taxi", amount := 50, date := "15/01/2024",
    dateMs := msRef, category := "food" }

/-- Witness instance for C2 and C3: a small daily budget with no
category limits. -/
def c3Budget : Budget := { amount := 100, period := .daily }

/-- Witness instance for C2 and C3: an input of amount 600 that would
blow the 100 budget. -/
def c3Input : ExpenseInput :=
  { description := "tv", amount := 600, date := "15/01/2024",
    dateMs := msRef, category := "shopping" }

/-- Counterexample instance for C4: a persisted record with all required
fields present and a number-typed but negative amount. -/
def c4Raw : RawExpense :=
  { id := some "c", description := some "refund", amount := some (-5),
    date := some "15/01/2024", dateMs := msRef, category := some "food",
    timestamp := some msRef }

/-- Counterexample instance for C5: one record in a category outside the
known category set. -/
def c5Expenses : List Expense :=
  [{ id := "d", description := "membership", amount := 100, date := "15/01/2024",
     dateMs := msRef, category := "gym", timestamp := some msRef }]

/-- Counterexample instance for C6: a record at local midnight exactly 7
days before the reference day, analyzed with the week filter. -/
def c6Expenses : List Expense :=
  [{ id := "e", description := "cinema", amount := 100, date := "08/01/2024",
     dateMs := msRef - 7 * msPerDay, category := "entertainment",
     timestamp := some (msRef - 7 * msPerDay) }]

/-- Counterexample instance for C7: two records splitting the total
exactly 50/50 between two categories, on the reference day. -/
def c7Expenses : List Expense :=
  [{ id := "f", description := "lunch", amount := 100, date := "15/01/2024",
     dateMs := msRef, category := "food", timestamp := some msRef },
   { id := "g", description := "bus", amount := 100, date := "15/01/2024",
     dateMs := msRef, category := "transport", timestamp := some msRef }]

/-- Witness instance for C3: an update input raising the amount far over
the c2Budget cap. -/
def c3UpInput : ExpenseInput :=
  { description := "taxi", amount := 5000, date := "15/01/2024",
    dateMs := msRef, category := "transport" }

/-- Witness instance for C5 and C9: a cent-valued food record. -/
def c9e1 : Expense :=
  { id := "h", description := "lunch", amount := 800, date := "15/01/2024",
    dateMs := msRef, category := "food", timestamp := some msRef }

/-- Witness instance for C5 and C9: a cent-valued transport record. -/
def c9e2 : Expense :=
  { id := "i", description := "bus", amount := 200, date := "15/01/2024",
    dateMs := msRef, category := "transport", timestamp := some msRef }

/-- Witness instance for C5 and C9: two cent-valued records in known
categories with distinct ids. -/
def c9Expenses : List Expense := [c9e1, c9e2]

/-! ### Support lemmas -/

theorem lookup_mem {l : List (String × ℚ)} {k : String} {v : ℚ}
    (h : l.lookup k = some v) : (k, v) ∈ l := by
  induction l with
  | nil => simp [List.lookup] at h
  | cons p t ih =>
      obtain ⟨k', v'⟩ := p
      rw [List.lookup] at h
      by_cases hk : k = k'
      · subst hk
        simp at h
        simp [h]
      · simp [beq_false_of_ne hk] at h
        exact List.mem_cons_of_mem _ (ih h)

theorem addTo_lookupD (m : List (String × ℚ)) (k c : String) (v : ℚ) :
    lookupD (addTo m k v) c = lookupD m c + if c = k then v else 0 := by
  induction m with
  | nil =>
      by_cases h : c = k
      · simp [addTo, lookupD, List.lookup, h]
      · simp [addTo, lookupD, List.lookup, h, beq_false_of_ne h]
  | cons p t ih =>
      obtain ⟨k', v'⟩ := p
      by_cases hk : k' = k
      · subst hk
        by_cases h : c = k'
        · simp [addTo, lookupD, List.lookup, h]
        · simp [addTo, lookupD, List.lookup, h, beq_false_of_ne h]
      · by_cases h : c = k'
        · subst h
          simp [addTo, lookupD, List.lookup, hk, Ne.symm hk]
        · simpa [addTo, lookupD, List.lookup, hk, h, beq_false_of_ne h] using ih

theorem addTo_sumValues (m : List (String × ℚ)) (k : String) (v : ℚ) :
    sumValues (addTo m k v) = sumValues m + v := by
  induction m with
  | nil => simp [addTo, sumValues]
  | cons p t ih =>
      obtain ⟨k', v'⟩ := p
      by_cases hk : k' = k
      · subst hk
        simp [addTo, sumValues]
        ring
      · simp [addTo, sumValues, hk] at ih ⊢
        rw [ih]
        ring

theorem foldl_pair_fst (es : List Expense) (t0 : ℚ) (m0 : List (String × ℚ)) :
    (es.foldl (fun p e => (p.1 + e.amount, addTo p.2 e.category e.amount)) (t0, m0)).1
      = t0 + (es.map Expense.amount).sum := by
  induction es generalizing t0 m0 with
  | nil => simp
  | cons e t ih =>
      rw [List.foldl_cons, ih]
      simp
      ring

theorem foldl_pair_snd (es : List Expense) (t0 : ℚ) (m0 : List (String × ℚ)) :
    (es.foldl (fun p e => (p.1 + e.amount, addTo p.2 e.category e.amount)) (t0, m0)).2
      = es.foldl (fun m e => addTo m e.category e.amount) m0 := by
  induction es generalizing t0 m0 with
  | nil => simp
  | cons e t ih => rw [List.foldl_cons, List.foldl_cons, ih]

theorem catSumBy_cons (key : Expense → String) (e : Expense) (t : List Expense)
    (c : String) :
    catSumBy key (e :: t) c
      = (if key e = c then e.amount else 0) + catSumBy key t c := by
  by_cases h : key e = c <;> simp [catSumBy, h]

theorem foldl_addTo_lookupD (key : Expense → String) (es : List Expense) :
    ∀ (m0 : List (String × ℚ)) (c : String),
      lookupD (es.foldl (fun m e => addTo m (key e) e.amount) m0) c
        = lookupD m0 c + catSumBy key es c := by
  induction es with
  | nil => intro m0 c; simp [catSumBy]
  | cons e t ih =>
      intro m0 c
      rw [List.foldl_cons, ih, addTo_lookupD, catSumBy_cons]
      by_cases h : key e = c
      · simp [h]
        ring
      · simp [h, Ne.symm h]

theorem foldl_addTo_sumValues (key : Expense → String) (es : List Expense) :
    ∀ m0 : List (String × ℚ),
      sumValues (es.foldl (fun m e => addTo m (key e) e.amount) m0)
        = sumValues m0 + (es.map Expense.amount).sum := by
  induction es with
  | nil => intro m0; simp
  | cons e t ih =>
      intro m0
      rw [List.foldl_cons, ih, addTo_sumValues]
      simp
      ring

theorem effTimestamp_of_tsPresent {e : Expense} (h : TsPresent e) :
    effTimestamp e = tsOf e := by
  obtain ⟨h1, h2⟩ := h
  cases hts : e.timestamp with
  | none => exact absurd hts h1
  | some t =>
      have ht : ¬t = 0 := fun h0 => h2 (by rw [hts, h0])
      simp [effTimestamp, tsOf, hts, ht]

theorem filter_eff_eq_ts (es : List Expense) (h : ∀ e ∈ es, TsPresent e) (ps : Int) :
    es.filter (fun e => decide (ps ≤ effTimestamp e))
      = es.filter (fun e => decide (ps ≤ tsOf e)) := by
  apply List.filter_congr
  intro e he
  rw [effTimestamp_of_tsPresent (h e he)]

/-! ### Lemmas about getBudgetStatus components -/

theorem getBudgetStatus_total (b : Budget) (es : List Expense) (now : DateTime) :
    (getBudgetStatus (some b) es now).total
      = ((es.filter fun e =>
            decide ((startOfPeriodDate b now).getTime ≤ effTimestamp e)).map
          Expense.amount).sum := by
  simp only [getBudgetStatus]
  rw [foldl_pair_fst]
  ring

theorem getBudgetStatus_lookupD (b : Budget) (es : List Expense) (now : DateTime)
    (c : String) :
    lookupD (getBudgetStatus (some b) es now).categoryTotals c
      = catSum (es.filter fun e =>
          decide ((startOfPeriodDate b now).getTime ≤ effTimestamp e)) c := by
  simp only [getBudgetStatus]
  rw [foldl_pair_snd, foldl_addTo_lookupD]
  simp [lookupD, catSum]

theorem getBudgetStatus_remaining (b : Budget) (es : List Expense) (now : DateTime) :
    (getBudgetStatus (some b) es now).remaining
      = max 0 (b.amount - (getBudgetStatus (some b) es now).total) := by
  simp only [getBudgetStatus]

theorem getBudgetStatus_sumValues (b : Budget) (es : List Expense) (now : DateTime) :
    sumValues (getBudgetStatus (some b) es now).categoryTotals
      = (getBudgetStatus (some b) es now).total := by
  simp only [getBudgetStatus]
  rw [foldl_pair_snd, foldl_addTo_sumValues, foldl_pair_fst]
  simp [sumValues]

theorem getBudgetStatus_over (b : Budget) (es : List Expense) (now : DateTime) :
    (getBudgetStatus (some b) es now).isOverBudget = true ↔
      b.amount < (getBudgetStatus (some b) es now).total ∨
      ∃ p ∈ b.categoryLimits.getD [],
        p.2 < lookupD (getBudgetStatus (some b) es now).categoryTotals p.1 := by
  simp only [getBudgetStatus]
  by_cases h : b.amount <
      ((es.filter fun e =>
          decide ((startOfPeriodDate b now).getTime ≤ effTimestamp e)).foldl
        (fun p e => (p.1 + e.amount, addTo p.2 e.category e.amount)) (0, [])).1
  · simp [h]
  · cases hcl : b.categoryLimits with
    | none => simp [h, hcl]
    | some ls => simp [h, hcl, List.any_eq_true]

/-! ### Period-start lemmas -/

theorem periodStart_daily (now : DateTime) (hv : now.Valid) :
    (now.setHours0).getTime = startOfDayMs now.getTime := by
  obtain ⟨h1, h2, _⟩ := hv
  simp only [DateTime.getTime, DateTime.setHours0, DateTime.dayNumber,
    startOfDayMs, msPerDay] at *
  omega

theorem periodStart_weekly_eq (now : DateTime) :
    ((now.setDate (now.getDate - now.getDay)).setHours0).getTime
      = (now.dayNumber - (now.dayNumber + 4) % 7) * msPerDay := by
  simp only [DateTime.getTime, DateTime.setHours0, DateTime.setDate,
    DateTime.dayNumber, DateTime.getDate, DateTime.getDay, daysFromCivil]
  ring

theorem weekly_is_most_recent_sunday (now : DateTime) (hv : now.Valid) :
    IsSundayStart ((now.dayNumber - (now.dayNumber + 4) % 7) * msPerDay) ∧
    (now.dayNumber - (now.dayNumber + 4) % 7) * msPerDay ≤ now.getTime ∧
    ∀ t : Int, IsSundayStart t → t ≤ now.getTime →
      t ≤ (now.dayNumber - (now.dayNumber + 4) % 7) * msPerDay := by
  obtain ⟨h1, h2, _⟩ := hv
  simp only [IsSundayStart, DateTime.getTime, msPerDay] at *
  refine ⟨⟨by omega, by omega⟩, by omega, ?_⟩
  intro t ⟨ht1, ht2⟩ ht3
  omega

theorem periodStart_monthly (now : DateTime) (hv : now.Valid) :
    ((now.setDate 1).setHours0).getTime = daysFromCivil now.year now.month 1 * msPerDay ∧
    ((now.setDate 1).setHours0).getTime ≤ now.getTime ∧
    ((now.setDate 1).setHours0).getTime % msPerDay = 0 := by
  obtain ⟨h1, h2, h3⟩ := hv
  simp only [DateTime.getTime, DateTime.setHours0, DateTime.setDate,
    DateTime.dayNumber, daysFromCivil, msPerDay] at *
  refine ⟨by ring, by omega, by omega⟩

/-! ### Claim C1 -/

/-- C1: for every record list with usable timestamps, every budget, and
every valid instant, getBudgetStatus computes the period start as the
spec describes for each period kind, sums exactly the records whose
timestamp is at or after the period start, sets remaining to
max(0, budget.amount - total), and reports over-budget exactly when the
total exceeds the budget amount or some configured category limit is
exceeded by that category's in-period total. -/
theorem c1_getBudgetStatus_follows_spec (b : Budget) (es : List Expense)
    (now : DateTime) (hv : now.Valid) (hts : ∀ e ∈ es, TsPresent e) :
    C1Claim b es now := by
  have hfe := filter_eff_eq_ts es hts (startOfPeriodDate b now).getTime
  refine ⟨?_, ?_, ?_, ?_⟩
  · refine ⟨fun hp => ?_, fun hp => ?_, fun hp => ?_⟩
    · simp only [startOfPeriodDate, hp]
      exact periodStart_daily now hv
    · simp only [startOfPeriodDate, hp]
      rw [periodStart_weekly_eq]
      exact weekly_is_most_recent_sunday now hv
    · simp only [startOfPeriodDate, hp]
      exact periodStart_monthly now hv
  · rw [getBudgetStatus_total, hfe]
  · exact getBudgetStatus_remaining b es now
  · rw [getBudgetStatus_over]
    constructor
    · rintro (h | ⟨p, hp, hlt⟩)
      · exact Or.inl h
      · refine Or.inr ⟨p, hp, ?_⟩
        rwa [getBudgetStatus_lookupD, hfe] at hlt
    · rintro (h | ⟨p, hp, hlt⟩)
      · exact Or.inl h
      · refine Or.inr ⟨p, hp, ?_⟩
        rwa [getBudgetStatus_lookupD, hfe]

/-- Witness for C1 at a concrete input: a monthly budget of 5000 and one
in-period record of 4500 at 2024-01-15. -/
theorem c1_getBudgetStatus_follows_spec_witness :
    nowRef.Valid ∧ (∀ e ∈ c1Expenses, TsPresent e) ∧ C1Claim c1Budget c1Expenses nowRef :=
  ⟨by decide, by decide,
    c1_getBudgetStatus_follows_spec c1Budget c1Expenses nowRef (by decide) (by decide)⟩

/-! ### Claim C2 -/

theorem limitLookup_pos {b : Budget} {c : String} {l : ℚ}
    (hpos : ∀ p ∈ b.categoryLimits.getD [], 0 < p.2)
    (hl : limitLookup b c = some l) : 0 < l := by
  cases hcl : b.categoryLimits with
  | none => simp [limitLookup, hcl] at hl
  | some ls =>
      simp only [limitLookup, hcl] at hl
      exact hpos (c, l) (by simp only [hcl, Option.getD_some]; exact lookup_mem hl)

/-- C2 (amended): with positive configured category limits, an add
requests confirmation exactly when the projected totals go over a cap,
while an update requests confirmation exactly when the amount strictly
increased AND the projected totals go over a cap; the source gates the
whole update check on amountDiff being positive, so a category-changing
update with unchanged or decreased amount never prompts. -/
theorem c2_confirmation_iff_projected_over (b : Budget) (es : List Expense)
    (now : DateTime) (input : ExpenseInput) (id : String) (old : Expense)
    (hpos : ∀ p ∈ b.categoryLimits.getD [], 0 < p.2) :
    (addWarns (some b) es now input = true ↔ C2AddCond b es now input) ∧
    (es.find? (fun e => e.id == id) = some old →
      (updateWarns (some b) es now old input = true ↔
        old.amount < input.amount ∧ C2UpdateCond b es now old input)) := by
  constructor
  · simp only [addWarns, C2AddCond]
    by_cases h1 : b.amount < (getBudgetStatus (some b) es now).total + input.amount
    · simp [h1]
    · cases hl : limitLookup b input.category with
      | none => simp [h1, hl]
      | some l =>
          have hne : l ≠ 0 := ne_of_gt (limitLookup_pos hpos hl)
          simp [h1, hl, hne]
  · intro _
    simp only [updateWarns, C2UpdateCond]
    by_cases hd : 0 < input.amount - old.amount
    · have hlt : old.amount < input.amount := by linarith
      by_cases h1 : b.amount <
          (getBudgetStatus (some b) es now).total + (input.amount - old.amount)
      · simp [hd, h1, hlt]
      · cases hl : limitLookup b input.category with
        | none => simp [hd, h1, hl]
        | some l =>
            have hne : l ≠ 0 := ne_of_gt (limitLookup_pos hpos hl)
            simp [hd, h1, hl, hne, hlt]
    · have hlt : ¬old.amount < input.amount := fun h => hd (by linarith)
      simp [hd, hlt]

/-- Witness for C2 at a concrete input: a budget with no category
limits and an add of 600 against a cap of 100. -/
theorem c2_confirmation_iff_projected_over_witness :
    (∀ p ∈ c3Budget.categoryLimits.getD [], 0 < p.2) ∧
    ((addWarns (some c3Budget) [] nowRef c3Input = true ↔
        C2AddCond c3Budget [] nowRef c3Input) ∧
     (List.find? (fun e => e.id == "z") ([] : List Expense) = some default →
       (updateWarns (some c3Budget) [] nowRef default c3Input = true ↔
         (default : Expense).amount < c3Input.amount ∧
           C2UpdateCond c3Budget [] nowRef default c3Input))) :=
  ⟨by decide,
    c2_confirmation_iff_projected_over c3Budget [] nowRef c3Input ("z") default (by decide)⟩

/-- Counterexample to C2 as stated: updating the in-period transport
record of 50 to the food category at the same amount projects a food
total of 50 over the configured food limit of 30, yet no confirmation is
requested, because the amount did not increase. -/
theorem c2_counterexample :
    List.find? (fun e => e.id == "b") [c2Old] = some c2Old ∧
    updateWarns (some c2Budget) [c2Old] nowRef c2Old c2Input = false ∧
    C2UpdateCond c2Budget [c2Old] nowRef c2Old c2Input := by
  refine ⟨rfl, ?_, ?_⟩
  · norm_num [updateWarns, c2Budget, c2Old, c2Input, nowRef, getBudgetStatus,
      startOfPeriodDate, DateTime.setHours0, DateTime.setDate, DateTime.getTime,
      DateTime.dayNumber, daysFromCivil, civilBase, msPerDay, effTimestamp, msRef,
      addTo, lookupD, limitLookup]
  · simp only [C2UpdateCond]
    refine Or.inr ⟨30, rfl, ?_⟩
    norm_num [c2Budget, c2Old, c2Input, nowRef, getBudgetStatus,
      startOfPeriodDate, DateTime.setHours0, DateTime.setDate, DateTime.getTime,
      DateTime.dayNumber, daysFromCivil, civilBase, msPerDay, effTimestamp, msRef,
      addTo, lookupD, List.lookup,
      show ("food" == "transport") = false from rfl,
      show ¬("food" = "transport") from by decide]

/-! ### Claim C3 -/

/-- C3: when a mutation triggers a budget warning and the user declines,
addExpense and updateExpense leave the in-memory record sequence and the
stored expenses array untouched and end in the cancelled outcome, which
is a distinct outcome from the genuine failures (storage failure, record
not found). -/
theorem c3_decline_leaves_state_unchanged (budget : Option Budget)
    (es st : List Expense) (now : DateTime) (input : ExpenseInput) (id : String)
    (old : Expense) (storeOk : Bool) :
    (addWarns budget es now input = true →
      addExpenseRun budget es st now input false storeOk
        = { expenses := es, storage := st, outcome := .cancelled }) ∧
    (es.find? (fun e => e.id == id) = some old →
      updateWarns budget es now old input = true →
      updateExpenseRun budget es st now id input false storeOk
        = { expenses := es, storage := st, outcome := .cancelled }) ∧
    (Outcome.cancelled ≠ Outcome.storageFailed ∧ Outcome.cancelled ≠ Outcome.notFound) := by
  refine ⟨?_, ?_, by simp, by simp⟩
  · intro hw
    simp [addExpenseRun, hw]
  · intro hfind hw
    simp [updateExpenseRun, hfind, hw]

/-- Witness for C3 at a concrete input: both the add of 5000 and the
update of the transport record to 5000 trigger a warning against the
1000 cap; with the user declining, both runs leave the store and
storage untouched and end cancelled. -/
theorem c3_decline_leaves_state_unchanged_witness :
    addWarns (some c2Budget) [c2Old] nowRef c3UpInput = true ∧
    List.find? (fun e => e.id == "b") [c2Old] = some c2Old ∧
    updateWarns (some c2Budget) [c2Old] nowRef c2Old c3UpInput = true ∧
    addExpenseRun (some c2Budget) [c2Old] [c2Old] nowRef c3UpInput false true
      = { expenses := [c2Old], storage := [c2Old], outcome := Outcome.cancelled } ∧
    updateExpenseRun (some c2Budget) [c2Old] [c2Old] nowRef ("b") c3UpInput false true
      = { expenses := [c2Old], storage := [c2Old], outcome := Outcome.cancelled } := by
  have hw1 : addWarns (some c2Budget) [c2Old] nowRef c3UpInput = true := by
    norm_num [addWarns, c2Budget, c2Old, c3UpInput, nowRef, getBudgetStatus,
      startOfPeriodDate, DateTime.setHours0, DateTime.setDate, DateTime.getTime,
      DateTime.dayNumber, daysFromCivil, civilBase, msPerDay, effTimestamp, msRef,
      addTo, lookupD, limitLookup]
  have hw2 : updateWarns (some c2Budget) [c2Old] nowRef c2Old c3UpInput = true := by
    norm_num [updateWarns, c2Budget, c2Old, c3UpInput, nowRef, getBudgetStatus,
      startOfPeriodDate, DateTime.setHours0, DateTime.setDate, DateTime.getTime,
      DateTime.dayNumber, daysFromCivil, civilBase, msPerDay, effTimestamp, msRef,
      addTo, lookupD, limitLookup]
  exact ⟨hw1, rfl, hw2,
    (c3_decline_leaves_state_unchanged (some c2Budget) [c2Old] [c2Old] nowRef
      c3UpInput ("b") c2Old true).1 hw1,
    (c3_decline_leaves_state_unchanged (some c2Budget) [c2Old] [c2Old] nowRef
      c3UpInput ("b") c2Old true).2.1 rfl hw2⟩

/-! ### Claim C9 -/

theorem filter_ne_eq_erase (es : List Expense) (e : Expense) (id : String)
    (hnd : (es.map Expense.id).Nodup) (he : e ∈ es) (hid : e.id = id) :
    es.filter (fun x => x.id != id) = es.erase e := by
  induction es with
  | nil => cases he
  | cons a t ih =>
      rw [List.map_cons, List.nodup_cons] at hnd
      rcases List.mem_cons.mp he with rfl | hmem
      · rw [List.erase_cons_head, List.filter_cons]
        have hcond : (e.id != id) = false := by simp [hid]
        rw [hcond]
        simp only [Bool.false_eq_true, if_false]
        apply List.filter_eq_self.mpr
        intro x hx
        have hxne : x.id ≠ e.id :=
          fun hxe => hnd.1 (hxe ▸ List.mem_map_of_mem Expense.id hx)
        rw [hid] at hxne
        simp [hxne]
      · have haid : a.id ≠ id := by
          intro h
          apply hnd.1
          rw [h, ← hid]
          exact List.mem_map_of_mem Expense.id hmem
        have hane : ¬(a == e) = true := by
          intro h
          apply haid
          rw [(by simpa using h : a = e), hid]
        rw [List.erase_cons_tail hane, List.filter_cons]
        have hcond : (a.id != id) = true := by simp [haid]
        rw [hcond]
        simp only [if_true]
        rw [ih hnd.2 hmem]

/-- C9: delete with an id no record has fails as not-found with the
sequence and storage byte-for-byte unchanged; delete whose durable write
fails rolls the optimistic in-memory removal back, leaving both
unchanged; and a successful delete under unique ids removes exactly the
record with that id. -/
theorem c9_delete_semantics (es st : List Expense) (id : String) (storeOk : Bool) :
    ((∀ e ∈ es, e.id ≠ id) →
      deleteExpenseRun es st id storeOk
        = { expenses := es, storage := st, outcome := .notFound }) ∧
    ((∃ e ∈ es, e.id = id) → storeOk = false →
      deleteExpenseRun es st id storeOk
        = { expenses := es, storage := st, outcome := .storageFailed }) ∧
    ((es.map Expense.id).Nodup → ∀ e ∈ es, e.id = id → storeOk = true →
      deleteExpenseRun es st id storeOk
        = { expenses := es.erase e, storage := es.erase e, outcome := .ok }) := by
  refine ⟨?_, ?_, ?_⟩
  · intro hall
    have hf : es.find? (fun e => e.id == id) = none :=
      List.find?_eq_none.mpr (fun x hx => by simpa using hall x hx)
    simp [deleteExpenseRun, hf]
  · rintro ⟨e, he, hid⟩ hso
    have hs : (es.find? (fun e => e.id == id)).isSome :=
      List.find?_isSome.mpr ⟨e, he, by simpa using hid⟩
    obtain ⟨x, hx⟩ := Option.isSome_iff_exists.mp hs
    simp [deleteExpenseRun, hx, hso]
  · intro hnd e he hid hso
    have hs : (es.find? (fun e => e.id == id)).isSome :=
      List.find?_isSome.mpr ⟨e, he, by simpa using hid⟩
    obtain ⟨x, hx⟩ := Option.isSome_iff_exists.mp hs
    simp [deleteExpenseRun, hx, hso, filter_ne_eq_erase es e id hnd he hid]

/-- Witness for C9 at a concrete input: deleting the food record by its
id from the two-record store with a successful write removes exactly
that record. -/
theorem c9_delete_semantics_witness :
    (c9Expenses.map Expense.id).Nodup ∧ c9e1 ∈ c9Expenses ∧ c9e1.id = "h" ∧
    deleteExpenseRun c9Expenses c9Expenses ("h") true
      = { expenses := c9Expenses.erase c9e1, storage := c9Expenses.erase c9e1,
          outcome := Outcome.ok } :=
  ⟨by decide, List.mem_cons_self _ _, rfl,
    (c9_delete_semantics c9Expenses c9Expenses ("h") true).2.2 (by decide) c9e1
      (List.mem_cons_self _ _) rfl rfl⟩

/-! ### Claim C10 -/

/-- C10: with no budget configured, getBudgetStatus returns the fixed
empty status for every record list and every instant. -/
theorem c10_no_budget_fixed_status (es : List Expense) (now : DateTime) :
    getBudgetStatus none es now =
      { total := 0, remaining := 0, categoryTotals := [], isOverBudget := false } := rfl

/-! ### Claim C4 -/

/-- C4 (amended): the validation gate that guards create and update
rejects a non-numeric (NaN) amount and any non-positive amount, so no
mutation reaches the store for such inputs; load, however, only excludes
records whose amount is not number-typed (besides missing id,
description or date), so a persisted record with a non-positive numeric
amount is loaded and strict positivity of stored amounts is not restored
at load time. -/
theorem c4_amount_validation (description : String) (amountParsed : Option ℚ)
    (category date : String) (dateMs : Int) (parsed : List RawExpense) (x : Expense) :
    (amountParsed = none →
      handleSubmitGate description amountParsed category date dateMs = none) ∧
    (∀ a : ℚ, amountParsed = some a → a ≤ 0 →
      handleSubmitGate description amountParsed category date dateMs = none) ∧
    (x ∈ (loadExpenses (some (StoredPayload.arr parsed))).1 ↔
      ∃ raw, raw ∈ parsed ∧ loadKeeps raw = true ∧ x = loadNormalize raw) := by
  refine ⟨?_, ?_, ?_⟩
  · intro h
    subst h
    simp [handleSubmitGate]
  · intro a ha hle
    subst ha
    simp [handleSubmitGate, hle]
  · simp only [loadExpenses, validateLoaded, List.mem_map, List.mem_filter]
    constructor
    · rintro ⟨raw, ⟨hmem, hk⟩, hx⟩
      exact ⟨raw, hmem, hk, hx.symm⟩
    · rintro ⟨raw, hmem, hk, hx⟩
      exact ⟨raw, ⟨hmem, hk⟩, hx.symm⟩

/-- Witness for C4 at a concrete input: an amount of 0 is rejected by
the submit gate. -/
theorem c4_amount_validation_witness :
    (0 : ℚ) ≤ 0 ∧
    handleSubmitGate ("lunch") (some 0) ("food") ("15/01/2024") msRef = none :=
  ⟨le_refl 0,
    (c4_amount_validation ("lunch") (some 0) ("food") ("15/01/2024") msRef [] default).2.1
      0 rfl (le_refl 0)⟩

/-- Counterexample to C4 as stated: a persisted record with every
required field present and a number-typed amount of -5 passes the load
filter and enters the store with a strictly negative amount. -/
theorem c4_counterexample :
    ∃ e ∈ (loadExpenses (some (StoredPayload.arr [c4Raw]))).1,
      e.id = "c" ∧ e.amount < 0 := by
  refine ⟨loadNormalize c4Raw, ?_, rfl, ?_⟩
  · have hk : loadKeeps c4Raw = true := rfl
    simp [loadExpenses, validateLoaded, List.filter_cons, hk]
  · norm_num [loadNormalize, c4Raw, round2, jsRound]

/-! ### Claim C8 -/

/-- Counterexample to C8 as stated: a parseable non-array payload loads
as the empty sequence, but the storage key is not removed, contrary to
the claim that the corrupt key is cleared for every corrupt payload. -/
theorem c8_counterexample :
    (loadExpenses (some StoredPayload.nonArray)).1 = [] ∧
    (loadExpenses (some StoredPayload.nonArray)).2 = false := ⟨rfl, rfl⟩

/-- C8 (amended): every corrupt persisted expenses payload loads as the
empty sequence without an error; the storage key is cleared when
JSON.parse throws, but is left in place when the payload parses to a
non-array value. -/
theorem c8_corrupt_payload_behavior :
    loadExpenses (some StoredPayload.malformed) = ([], true) ∧
    loadExpenses (some StoredPayload.nonArray) = ([], false) := ⟨rfl, rfl⟩

/-! ### Claim C5 -/

theorem round2_cents {q : ℚ} (h : Cents q) : round2 q = q := by
  obtain ⟨n, rfl⟩ := h
  have h1 : ((n : ℚ) / 100) * 100 = (n : ℚ) := by field_simp
  rw [round2, jsRound, h1, Int.floor_int_add]
  norm_num

theorem cents_add {a b : ℚ} (ha : Cents a) (hb : Cents b) : Cents (a + b) := by
  obtain ⟨n, rfl⟩ := ha
  obtain ⟨m, rfl⟩ := hb
  refine ⟨n + m, ?_⟩
  push_cast
  ring

theorem cents_sum (l : List ℚ) (h : ∀ q ∈ l, Cents q) : Cents l.sum := by
  induction l with
  | nil => exact ⟨0, by norm_num⟩
  | cons q t ih =>
      rw [List.sum_cons]
      exact cents_add (h q (List.mem_cons_self _ _))
        (ih fun x hx => h x (List.mem_cons_of_mem _ hx))

theorem cents_catSumBy (key : Expense → String) (es : List Expense) (c : String)
    (h : ∀ e ∈ es, Cents e.amount) : Cents (catSumBy key es c) := by
  apply cents_sum
  intro q hq
  rw [List.mem_map] at hq
  obtain ⟨e, he, rfl⟩ := hq
  exact h e (List.mem_filter.mp he).1

theorem sum_ite_mem (ids : List String) (hnd : ids.Nodup) (k : String)
    (hk : k ∈ ids) (a : ℚ) :
    (ids.map fun i => if k = i then a else 0).sum = a := by
  induction ids with
  | nil => cases hk
  | cons i t ih =>
      rw [List.map_cons, List.sum_cons]
      rw [List.nodup_cons] at hnd
      rcases List.mem_cons.mp hk with rfl | hmem
      · rw [if_pos rfl, List.sum_eq_zero, add_zero]
        intro x hx
        rw [List.mem_map] at hx
        obtain ⟨j, hj, rfl⟩ := hx
        refine if_neg fun h => hnd.1 ?_
        rw [h]
        exact hj
      · have hne : k ≠ i := by
          intro h
          apply hnd.1
          rw [← h]
          exact hmem
        rw [if_neg hne, ih hnd.2 hmem, zero_add]

theorem sum_catSums_eq_total (key : Expense → String) (es : List Expense)
    (ids : List String) (hnd : ids.Nodup) (hcov : ∀ e ∈ es, key e ∈ ids) :
    (ids.map fun i => catSumBy key es i).sum = (es.map Expense.amount).sum := by
  induction es with
  | nil => simp [catSumBy]
  | cons e t ih =>
      have hmap : (ids.map fun i => catSumBy key (e :: t) i)
          = ids.map fun i => (if key e = i then e.amount else 0) + catSumBy key t i :=
        List.map_congr_left fun i _ => catSumBy_cons key e t i
      rw [hmap, List.sum_map_add, sum_ite_mem ids hnd (key e) (hcov e (List.mem_cons_self _ _)),
        ih fun x hx => hcov x (List.mem_cons_of_mem _ hx), List.map_cons, List.sum_cons]

/-- C5 (amended): the Budget Evaluator's per-category totals always sum
to its total, for every record list without restriction; the Analytics
category breakdown's per-category amounts sum to the filtered total
whenever every record's bucket key lies in the known category set and
every amount is an exact number of cents — records in categories
outside the known set are counted in the total but in no breakdown
entry. -/
theorem c5_category_sums (b : Budget) (es : List Expense) (now : DateTime) :
    sumValues (getBudgetStatus (some b) es now).categoryTotals
      = (getBudgetStatus (some b) es now).total ∧
    ((∀ e ∈ es, catKey e ∈ categoriesList.map Prod.fst) →
      (∀ e ∈ es, Cents e.amount) →
      ((getCategoryData es).map CatDatum.amount).sum = getTotalSpent es) := by
  refine ⟨getBudgetStatus_sumValues b es now, fun hcov hcents => ?_⟩
  have hlook : ∀ c : String,
      lookupD (es.foldl (fun acc e => addTo acc (catKey e) e.amount) []) c
        = catSumBy catKey es c := by
    intro c
    rw [foldl_addTo_lookupD]
    simp [lookupD]
  have hmap1 : (getCategoryData es).map CatDatum.amount
      = categoriesList.map fun c => round2 (catSumBy catKey es c.1) := by
    simp only [getCategoryData, List.map_map]
    exact List.map_congr_left fun c _ => by simp [Function.comp, hlook]
  rw [hmap1]
  have hmap2 : (categoriesList.map fun c => round2 (catSumBy catKey es c.1))
      = categoriesList.map fun c => catSumBy catKey es c.1 :=
    List.map_congr_left fun c _ => round2_cents (cents_catSumBy catKey es c.1 hcents)
  rw [hmap2]
  have hmap3 : (categoriesList.map fun c => catSumBy catKey es c.1)
      = (categoriesList.map Prod.fst).map fun i => catSumBy catKey es i := by
    rw [List.map_map]
    exact List.map_congr_left fun c _ => rfl
  rw [hmap3, sum_catSums_eq_total catKey es (categoriesList.map Prod.fst) (by decide) hcov,
    getTotalSpent, round2_cents (cents_sum _ ?_)]
  intro q hq
  rw [List.mem_map] at hq
  obtain ⟨e, he, rfl⟩ := hq
  exact hcents e he

/-- Witness for C5 at a concrete input: two cent-valued records in the
known categories food and transport, discharging the known-category and
exact-cents hypotheses of the analytics half. -/
theorem c5_category_sums_witness :
    (∀ e ∈ c9Expenses, catKey e ∈ categoriesList.map Prod.fst) ∧
    (∀ e ∈ c9Expenses, Cents e.amount) ∧
    (sumValues (getBudgetStatus (some c1Budget) c9Expenses nowRef).categoryTotals
      = (getBudgetStatus (some c1Budget) c9Expenses nowRef).total ∧
    ((getCategoryData c9Expenses).map CatDatum.amount).sum = getTotalSpent c9Expenses) := by
  have hcov : ∀ e ∈ c9Expenses, catKey e ∈ categoriesList.map Prod.fst := by decide
  have hcents : ∀ e ∈ c9Expenses, Cents e.amount := by
    intro e he
    simp only [c9Expenses, List.mem_cons, List.not_mem_nil, or_false] at he
    rcases he with rfl | rfl
    · exact ⟨80000, by norm_num [c9e1]⟩
    · exact ⟨20000, by norm_num [c9e2]⟩
  exact ⟨hcov, hcents, (c5_category_sums c1Budget c9Expenses nowRef).1,
    (c5_category_sums c1Budget c9Expenses nowRef).2 hcov hcents⟩

/-- Counterexample to C5 as stated: a single record in the unknown
category gym contributes 100 to the filtered total but to no entry of
the category breakdown, so the breakdown amounts sum to 0 while the
total is 100. -/
theorem c5_counterexample :
    ((getCategoryData c5Expenses).map CatDatum.amount).sum = 0 ∧
    getTotalSpent c5Expenses = 100 ∧
    ((getCategoryData c5Expenses).map CatDatum.amount).sum ≠ getTotalSpent c5Expenses := by
  refine ⟨?_, ?_, ?_⟩ <;>
    simp [getCategoryData, getTotalSpent, c5Expenses, categoriesList, addTo,
      lookupD, List.lookup, round2, jsRound, sumValues, catKey] <;>
    norm_num

/-! ### Claim C6 -/

/-- C6 (code bug evidence): a record at local midnight exactly 7 days
before today is selected by the week filter (whose lower bound is today
minus 7 days, an 8-day window), yet every one of the 7 chart buckets
(which cover only the trailing 7 days) sums to 0, so the selected
record's amount of 100 is counted in no bucket. -/
theorem c6_week_filter_selects_day_outside_buckets :
    filterExpenses DateFilter.week none none nowRef c6Expenses = c6Expenses ∧
    getChartData c6Expenses DateFilter.week none none nowRef = [0, 0, 0, 0, 0, 0, 0] ∧
    (c6Expenses.map Expense.amount).sum = 100 := by
  refine ⟨rfl, ?_, by norm_num [c6Expenses]⟩
  simp [getChartData, chartDays, c6Expenses, nowRef, msRef, msPerDay,
    DateTime.setHours0, DateTime.setDate, DateTime.getDate, DateTime.dayNumber,
    DateTime.getTime, daysFromCivil, civilBase, effTimestamp, List.range_succ]
  norm_num [round2, jsRound]

/-! ### Claim C7 -/

theorem tip_rest_eq (es : List Expense) (cd : List CatDatum) (f : DateFilter)
    (hne : es ≠ [])
    (hnc : ∀ top : CatDatum, argmaxFirst (nonzeroCats cd) = some top →
      top.percentage ≤ 50) :
    getMoneySavingTip es cd f =
      if 1000 < dailyAvg es f then .highSpend (jsRound (dailyAvg es f))
      else if dailyAvg es f * (3 / 2) < recentAvg es then .recentTrend
      else if (nonzeroCats cd).length ≤ 2 ∧ 5 < es.length then .diversification
      else .balanced := by
  have he : es.isEmpty = false := by simpa using hne
  simp only [nonzeroCats] at hnc
  simp only [getMoneySavingTip, he, Bool.false_eq_true, if_false,
    dailyAvg, recentAvg, nonzeroCats]
  cases hm : argmaxFirst (cd.filter fun c => decide (0 < c.amount)) with
  | none => rfl
  | some top =>
      have h50 : ¬50 < top.percentage := not_lt.mpr (hnc top hm)
      simp [h50]

/-- C7 (amended): the advisory tip is selected by the six rules in
source priority order, where only the first matching rule fires; rule 2
(the concentration warning) fires exactly when the highest-spending
category's rounded percentage strictly exceeds 50, so a category holding
exactly 50 percent of the total does not trigger it; the remaining rules
are as the spec states them. -/
theorem c7_tip_decision_table (es : List Expense) (cd : List CatDatum)
    (f : DateFilter) :
    (es = [] → getMoneySavingTip es cd f = .onboarding) ∧
    (es ≠ [] → ∀ top : CatDatum, argmaxFirst (nonzeroCats cd) = some top →
      50 < top.percentage →
      getMoneySavingTip es cd f = .concentration top.name top.percentage) ∧
    (es ≠ [] →
      (∀ top : CatDatum, argmaxFirst (nonzeroCats cd) = some top →
        top.percentage ≤ 50) →
      1000 < dailyAvg es f →
      getMoneySavingTip es cd f = .highSpend (jsRound (dailyAvg es f))) ∧
    (es ≠ [] →
      (∀ top : CatDatum, argmaxFirst (nonzeroCats cd) = some top →
        top.percentage ≤ 50) →
      dailyAvg es f ≤ 1000 →
      dailyAvg es f * (3 / 2) < recentAvg es →
      getMoneySavingTip es cd f = .recentTrend) ∧
    (es ≠ [] →
      (∀ top : CatDatum, argmaxFirst (nonzeroCats cd) = some top →
        top.percentage ≤ 50) →
      dailyAvg es f ≤ 1000 →
      recentAvg es ≤ dailyAvg es f * (3 / 2) →
      (nonzeroCats cd).length ≤ 2 → 5 < es.length →
      getMoneySavingTip es cd f = .diversification) ∧
    (es ≠ [] →
      (∀ top : CatDatum, argmaxFirst (nonzeroCats cd) = some top →
        top.percentage ≤ 50) →
      dailyAvg es f ≤ 1000 →
      recentAvg es ≤ dailyAvg es f * (3 / 2) →
      ¬((nonzeroCats cd).length ≤ 2 ∧ 5 < es.length) →
      getMoneySavingTip es cd f = .balanced) := by
  refine ⟨?_, ?_, ?_, ?_, ?_, ?_⟩
  · rintro rfl
    rfl
  · intro hne top htop h50
    have he : es.isEmpty = false := by simpa using hne
    simp only [nonzeroCats] at htop
    simp only [getMoneySavingTip, he, Bool.false_eq_true, if_false, htop, if_pos h50]
  · intro hne hnc hgt
    rw [tip_rest_eq es cd f hne hnc, if_pos hgt]
  · intro hne hnc hle htrend
    rw [tip_rest_eq es cd f hne hnc, if_neg (not_lt.mpr hle), if_pos htrend]
  · intro hne hnc hle htrend hcnt hlen
    rw [tip_rest_eq es cd f hne hnc, if_neg (not_lt.mpr hle),
      if_neg (not_lt.mpr htrend), if_pos ⟨hcnt, hlen⟩]
  · intro hne hnc hle htrend hnot
    rw [tip_rest_eq es cd f hne hnc, if_neg (not_lt.mpr hle),
      if_neg (not_lt.mpr htrend), if_neg hnot]

/-- Witness for C7 at a concrete input: the empty record set gets the
onboarding tip by rule 1. -/
theorem c7_tip_decision_table_witness :
    getMoneySavingTip [] [] DateFilter.all = Tip.onboarding :=
  (c7_tip_decision_table [] [] DateFilter.all).1 rfl

/-- Counterexample to C7 as stated: with two records splitting the total
exactly 50/50, the top category holds exactly 50 percent, yet the tip is
the positive reinforcement message, not the concentration warning the
claim says an exactly-50-percent category triggers. -/
theorem c7_counterexample :
    (getCategoryData c7Expenses).map CatDatum.percentage = [50, 50, 0, 0, 0, 0] ∧
    getMoneySavingTip c7Expenses (getCategoryData c7Expenses) DateFilter.today
      = Tip.balanced ∧
    getMoneySavingTip c7Expenses (getCategoryData c7Expenses) DateFilter.today
      ≠ Tip.concentration ("Food") 50 := by
  have hcd : getCategoryData c7Expenses =
      [{ name := "Food", amount := 100, percentage := 50 },
       { name := "Transport", amount := 100, percentage := 50 },
       { name := "Shopping", amount := 0, percentage := 0 },
       { name := "Bills", amount := 0, percentage := 0 },
       { name := "Entertainment", amount := 0, percentage := 0 },
       { name := "Other", amount := 0, percentage := 0 }] := by
    simp [getCategoryData, c7Expenses, categoriesList, addTo, lookupD,
      List.lookup, sumValues, catKey, round2, jsRound]
    norm_num
  have htip : getMoneySavingTip c7Expenses (getCategoryData c7Expenses)
      DateFilter.today = Tip.balanced := by
    rw [hcd]
    simp only [getMoneySavingTip, getTotalSpent, totalDaysFor, c7Expenses,
      argmaxFirst, takeLast]
    norm_num [round2, jsRound]
  refine ⟨by rw [hcd]; rfl, htip, by rw [htip]; intro h; cases h⟩

end SpendTracker
